import Mathlib

/-!
Verification of the event filtering and body-transformation engine of
`app_ami_kafka.c` (AMI events to Kafka publisher).

The C source is shallowly embedded: C strings become `List Char` (byte-for-byte,
NUL-free), the Asterisk string helpers (`ast_strip`, `ast_skip_blanks`,
`ast_begins_with`, `ast_ends_with`, `strtok_r`, `strstr`) are modelled with
their standard semantics, `ao2` list containers become Lean lists (with
`ao2_link` appending in insertion order), and POSIX `regcomp`/`regexec` are
abstracted by an oracle `regcomp : List Char → Option (List Char → Bool)`
(`none` = compilation failure, `some f` = the compiled matcher's existence
check).  Allocation failure (`ast_calloc`/`ast_strdup` returning NULL) is not
modelled.  Fallible C functions return `Option`.
-/

/-! ## Asterisk / libc string primitives -/

/-- Blank characters as tested throughout Asterisk's strings.h: any character
with code below 33 (space, TAB, CR, LF, ...). -/
def char_blank (c : Char) : Bool := c.toNat < 33

/-- Model of `ast_skip_blanks`: advance past leading blank characters. -/
def ast_skip_blanks (s : List Char) : List Char := s.dropWhile char_blank

/-- Model of `ast_trim_blanks`: remove trailing blank characters in place. -/
def ast_trim_blanks (s : List Char) : List Char :=
  (s.reverse.dropWhile char_blank).reverse

/-- Model of `ast_strip`'s return value: skip leading blanks, trim trailing
blanks. -/
def ast_strip (s : List Char) : List Char := ast_trim_blanks (ast_skip_blanks s)

/-- Content of a buffer after `ast_strip(s)` is called and its RETURN VALUE IS
DISCARDED, as `add_filter` does: the leading blanks stay in the buffer, only
the trailing blanks (after the first non-blank) are removed. -/
def ast_strip_discarded (s : List Char) : List Char :=
  s.takeWhile char_blank ++ ast_strip s

/-- Model of `strstr(s, pat)`: the suffix of `s` starting at the first
occurrence of `pat`, or `none` when `pat` does not occur (NULL). -/
def strstr_suffix (pat : List Char) : List Char → Option (List Char)
  | [] => if pat.isEmpty then some [] else Option.none
  | c :: rest =>
    if List.isPrefixOf pat (c :: rest) then some (c :: rest)
    else strstr_suffix pat rest

/-- Accumulator worker for `strtok_all`. -/
def strtok_aux (delims : List Char) : List Char → List Char → List (List Char)
  | [], acc => if acc.isEmpty then [] else [acc.reverse]
  | c :: rest, acc =>
    if delims.contains c then
      if acc.isEmpty then strtok_aux delims rest []
      else acc.reverse :: strtok_aux delims rest []
    else strtok_aux delims rest (c :: acc)

/-- Model of a full `strtok_r` loop over `s` with delimiter set `delims`: the
maximal runs of non-delimiter characters, in order.  `strtok_r` never returns
an empty token and collapses adjacent delimiters. -/
def strtok_all (delims s : List Char) : List (List Char) :=
  strtok_aux delims s []

/-- CRLF delimiter set used for AMI body lines (`strtok_r(..., "\r\n", ...)`). -/
def crlf_delims : List Char := ['\r', '\n']

/-! ## Data model (`app_ami_kafka.c` lines 103-129) -/

/-- Event filter match types, from `enum event_filter_match_type`. -/
inductive event_filter_match_type where
| FILTER_MATCH_REGEX
| FILTER_MATCH_EXACT
| FILTER_MATCH_STARTS_WITH
| FILTER_MATCH_ENDS_WITH
| FILTER_MATCH_CONTAINS
| FILTER_MATCH_NONE
deriving DecidableEq

/-- One compiled event filter, from `struct event_filter_entry`.  The compiled
`regex_t` is abstracted as the matcher function produced by the `regcomp`
oracle. -/
structure event_filter_entry where
  match_type : event_filter_match_type
  regex_filter : Option (List Char → Bool)
  string_filter : Option (List Char)
  event_name : Option (List Char)
  header_name : Option (List Char)

/-! ## Matching (`match_eventdata`, lines 617-635) -/

/-- Model of `match_eventdata`.  In the C source the REGEX case dereferences
`regex_filter` and the other pattern cases dereference `string_filter`; for
entries built by `add_filter` those fields are always populated for the
corresponding match type, so the `getD` defaults are never exercised there. -/
def match_eventdata (entry : event_filter_entry) (eventdata : List Char) : Bool :=
  match entry.match_type with
  | .FILTER_MATCH_REGEX => (entry.regex_filter.getD (fun _ => false)) eventdata
  | .FILTER_MATCH_STARTS_WITH =>
      List.isPrefixOf (entry.string_filter.getD []) eventdata
  | .FILTER_MATCH_ENDS_WITH =>
      List.isSuffixOf (entry.string_filter.getD []) eventdata
  | .FILTER_MATCH_CONTAINS =>
      (strstr_suffix (entry.string_filter.getD []) eventdata).isSome
  | .FILTER_MATCH_EXACT => decide (eventdata = entry.string_filter.getD [])
  | .FILTER_MATCH_NONE => true

/-! ## Per-entry event test (`filter_cmp_fn`, lines 649-702) -/

/-- Model of `filter_cmp_fn`: does one filter entry match an (event, body)
pair?  Mirrors the C control flow: the event-name gate first, then either the
full-body test (with the empty-body special case for `FILTER_MATCH_NONE`) or
the header search over CRLF-separated lines. -/
def filter_cmp_fn (filter_entry : event_filter_entry) (event body : List Char) : Bool :=
  (match filter_entry.event_name with
   | some en => decide (event = en)
   | Option.none => true)
  &&
  (match filter_entry.header_name with
   | Option.none =>
     if body.isEmpty then
       decide (filter_entry.match_type = .FILTER_MATCH_NONE)
     else
       match_eventdata filter_entry body
   | some hn =>
     (strtok_all crlf_delims body).any (fun line =>
       !line.isEmpty &&
       List.isPrefixOf hn line &&
       (let value := ast_skip_blanks (line.drop hn.length)
        !value.isEmpty && match_eventdata filter_entry value)))

/-! ## Decision evaluator (`should_send_event`, lines 720-756) -/

/-- Model of `should_send_event`.  The `ao2_callback_data` scans set `result`
to 1 exactly when some entry in the container matches (CMP_STOP only
short-circuits the scan), so each scan is `List.any`. -/
def should_send_event (includefilters excludefilters : List event_filter_entry)
    (event body : List Char) : Bool :=
  let num_include := includefilters.length
  let num_exclude := excludefilters.length
  if num_include = 0 ∧ num_exclude = 0 then
    true
  else if num_include ≠ 0 ∧ num_exclude = 0 then
    includefilters.any (fun e => filter_cmp_fn e event body)
  else if num_include = 0 ∧ num_exclude ≠ 0 then
    !(excludefilters.any (fun e => filter_cmp_fn e event body))
  else
    includefilters.any (fun e => filter_cmp_fn e event body) &&
    !(excludefilters.any (fun e => filter_cmp_fn e event body))

/-! ## Filter compiler (`add_filter`, lines 375-607) -/

/-- Delimiters of the advanced-syntax option scan:
`strtok_r(temp, " ,)", &saveptr)`. -/
def option_delims : List Char := [' ', ',', ')']

/-- Result of recognising one option token inside the advanced filter
syntax. -/
inductive filter_option where
| OPT_ACTION (is_exclude : Bool)
| OPT_NAME (v : List Char)
| OPT_HEADER (v : List Char)
| OPT_METHOD (m : event_filter_match_type)
| OPT_BAD
deriving DecidableEq

/-- Recognition of one option token, following the `strtok_r` loop body of
`add_filter` branch by branch.  `strncmp(option, "action", 6)` is a prefix
test; the value is everything after the first `(` of the token, passed through
`ast_strip` whose return value the C code discards (so leading blanks such as
TAB survive into the comparison / the stored value).  `OPT_BAD` covers every
path that logs a warning and returns -1: a recognised option without `(`, an
unknown `action`/`method` value, an empty `name`/`header` value, and a token
that is no option at all. -/
def parse_filter_option (option : List Char) : filter_option :=
  if List.isPrefixOf "action".data option then
    match strstr_suffix ['('] option with
    | Option.none => .OPT_BAD
    | some tail =>
      let val := ast_strip_discarded tail.tail
      if val = "include".data then .OPT_ACTION false
      else if val = "exclude".data then .OPT_ACTION true
      else .OPT_BAD
  else if List.isPrefixOf "name".data option then
    match strstr_suffix ['('] option with
    | Option.none => .OPT_BAD
    | some tail =>
      let val := ast_strip_discarded tail.tail
      if val = [] then .OPT_BAD else .OPT_NAME val
  else if List.isPrefixOf "header".data option then
    match strstr_suffix ['('] option with
    | Option.none => .OPT_BAD
    | some tail =>
      let val := ast_strip_discarded tail.tail
      if val = [] then .OPT_BAD
      else if List.isSuffixOf [':'] val then .OPT_HEADER val
      else .OPT_HEADER (val ++ [':'])
  else if List.isPrefixOf "method".data option then
    match strstr_suffix ['('] option with
    | Option.none => .OPT_BAD
    | some tail =>
      let val := ast_strip_discarded tail.tail
      if val = "regex".data then .OPT_METHOD .FILTER_MATCH_REGEX
      else if val = "exact".data then .OPT_METHOD .FILTER_MATCH_EXACT
      else if val = "starts_with".data then .OPT_METHOD .FILTER_MATCH_STARTS_WITH
      else if val = "ends_with".data then .OPT_METHOD .FILTER_MATCH_ENDS_WITH
      else if val = "contains".data then .OPT_METHOD .FILTER_MATCH_CONTAINS
      else if val = "none".data then .OPT_METHOD .FILTER_MATCH_NONE
      else .OPT_BAD
  else .OPT_BAD

/-- Mutable state of the advanced-syntax option loop: the entry fields being
filled in, the pending routing flag, and the `options_found` bits (collapsed
to the three facts the later checks read). -/
structure filter_options_state where
  is_exclude : Bool
  match_type : event_filter_match_type
  event_name : Option (List Char)
  header_name : Option (List Char)
  options_found : Bool
  name_found : Bool
  header_found : Bool

/-- Loop state on entry to the option scan: `match_type` was just reset to
`FILTER_MATCH_NONE` for advanced syntax, the entry fields are zero-initialised
and `is_exclude` carries the leading-`!` decision. -/
def init_options_state (is_exclude : Bool) : filter_options_state :=
  { is_exclude := is_exclude
    match_type := .FILTER_MATCH_NONE
    event_name := Option.none
    header_name := Option.none
    options_found := false
    name_found := false
    header_found := false }

/-- One iteration of the option loop: fail on a bad token, otherwise update
the state (later occurrences of the same option overwrite earlier ones). -/
def apply_filter_option (st : filter_options_state) (option : List Char) :
    Option filter_options_state :=
  match parse_filter_option option with
  | .OPT_BAD => Option.none
  | .OPT_ACTION ex => some { st with is_exclude := ex, options_found := true }
  | .OPT_NAME v =>
      some { st with event_name := some v, options_found := true, name_found := true }
  | .OPT_HEADER v =>
      some { st with header_name := some v, options_found := true, header_found := true }
  | .OPT_METHOD m => some { st with match_type := m, options_found := true }

/-- Final pattern-compilation step of `add_filter` (lines 573-606): an empty
pattern stores nothing, a REGEX pattern goes through `regcomp` (failure is a
compile error), any other pattern is stored verbatim in `string_filter`. -/
def compile_filter_pattern (regcomp : List Char → Option (List Char → Bool))
    (mt : event_filter_match_type) (ename hname : Option (List Char))
    (is_exclude : Bool) (fp : List Char) : Option (event_filter_entry × Bool) :=
  if fp = [] then
    some ({ match_type := mt, regex_filter := Option.none,
            string_filter := Option.none, event_name := ename,
            header_name := hname }, is_exclude)
  else if mt = .FILTER_MATCH_REGEX then
    match regcomp fp with
    | Option.none => Option.none
    | some f =>
      some ({ match_type := mt, regex_filter := some f,
              string_filter := Option.none, event_name := ename,
              header_name := hname }, is_exclude)
  else
    some ({ match_type := mt, regex_filter := Option.none,
            string_filter := some fp, event_name := ename,
            header_name := hname }, is_exclude)

/-- Advanced-syntax part of `add_filter` (lines 418-571 plus the shared
compilation step).  `temp` is the buffer after `ast_strip` was applied to the
text following the first `(` of the criteria (return value discarded). -/
def add_filter_advanced (regcomp : List Char → Option (List Char → Bool))
    (temp : List Char) (is_exclude : Bool) (fp : List Char) :
    Option (event_filter_entry × Bool) :=
  if temp = [] then Option.none
  else if ¬ List.isSuffixOf [')'] temp then Option.none
  else
    match (strtok_all option_delims temp).foldlM apply_filter_option
        (init_options_state is_exclude) with
    | Option.none => Option.none
    | some st =>
      if st.options_found = false then Option.none
      else if fp = [] ∧ st.match_type ≠ .FILTER_MATCH_NONE then Option.none
      else if fp ≠ [] ∧ st.match_type = .FILTER_MATCH_NONE then Option.none
      else if st.name_found = false ∧ st.header_found = false ∧
          st.match_type = .FILTER_MATCH_NONE then Option.none
      else
        compile_filter_pattern regcomp st.match_type st.event_name
          st.header_name st.is_exclude fp

/-- Model of `add_filter` up to (but not including) the `ao2_link` into the
containers: `none` is the -1 failure return, `some (entry, is_exclude)` the
compiled entry plus its routing.  `filter_pattern` is `none` for a NULL
option value. -/
def add_filter (regcomp : List Char → Option (List Char → Bool))
    (criteria : List Char) (filter_pattern : Option (List Char)) :
    Option (event_filter_entry × Bool) :=
  if criteria = [] then Option.none
  else
    match filter_pattern with
    | Option.none => Option.none
    | some fp0 =>
      let is_exclude := decide (fp0.head? = some '!')
      let fp := if fp0.head? = some '!' then fp0.tail else fp0
      match strstr_suffix ['('] criteria with
      | Option.none =>
        if fp = [] then Option.none
        else
          compile_filter_pattern regcomp .FILTER_MATCH_REGEX Option.none
            Option.none is_exclude fp
      | some options_start =>
        add_filter_advanced regcomp (ast_strip_discarded options_start.tail)
          is_exclude fp

/-- Model of a full `add_filter` call against a pair of `ao2` containers:
the returned triple is (include container, exclude container, C return
value).  `ao2_link` appends to a list container in insertion order. -/
def add_filter_into (regcomp : List Char → Option (List Char → Bool))
    (criteria : List Char) (filter_pattern : Option (List Char))
    (includefilters excludefilters : List event_filter_entry) :
    List event_filter_entry × List event_filter_entry × Int :=
  match add_filter regcomp criteria filter_pattern with
  | Option.none => (includefilters, excludefilters, -1)
  | some (entry, true) => (includefilters, excludefilters ++ [entry], 0)
  | some (entry, false) => (includefilters ++ [entry], excludefilters, 0)

/-- Compiling a whole declaration set into fresh containers, as the
configuration loader does by calling `eventfilter_handler` (hence
`add_filter`) once per `eventfilter` line. -/
def compile_filters (regcomp : List Char → Option (List Char → Bool))
    (decls : List (List Char × Option (List Char))) :
    List event_filter_entry × List event_filter_entry :=
  decls.foldl
    (fun acc d =>
      let r := add_filter_into regcomp d.1 d.2 acc.1 acc.2
      (r.1, r.2.1))
    ([], [])

/-- Regex oracle whose matcher accepts everything; used to instantiate
theorems at concrete inputs. -/
def regcomp_any : List Char → Option (List Char → Bool) :=
  fun _ => some (fun _ => true)

/-! ## Analysis views of the option loop -/

/-- Total version of one option-loop iteration: a bad token leaves the state
unchanged instead of failing.  On bad-token-free lists it agrees with
`apply_filter_option`, and it isolates which fields each option kind
updates. -/
def apply_filter_option_total (st : filter_options_state) (option : List Char) :
    filter_options_state :=
  match parse_filter_option option with
  | .OPT_BAD => st
  | .OPT_ACTION ex => { st with is_exclude := ex, options_found := true }
  | .OPT_NAME v =>
      { st with event_name := some v, options_found := true, name_found := true }
  | .OPT_HEADER v =>
      { st with header_name := some v, options_found := true, header_found := true }
  | .OPT_METHOD m => { st with match_type := m, options_found := true }

/-- Is this token recognised as some option (i.e. not rejected)? -/
def is_known_option (t : List Char) : Bool :=
  match parse_filter_option t with
  | .OPT_BAD => false
  | _ => true

/-- Is this token a well-formed `name(...)` option? -/
def is_name_option (t : List Char) : Bool :=
  match parse_filter_option t with
  | .OPT_NAME _ => true
  | _ => false

/-- Is this token a well-formed `header(...)` option? -/
def is_header_option (t : List Char) : Bool :=
  match parse_filter_option t with
  | .OPT_HEADER _ => true
  | _ => false

/-- Is this token a well-formed `method(...)` option? -/
def is_method_option (t : List Char) : Bool :=
  match parse_filter_option t with
  | .OPT_METHOD _ => true
  | _ => false

/-- Is this token a well-formed `action(...)` option? -/
def is_action_option (t : List Char) : Bool :=
  match parse_filter_option t with
  | .OPT_ACTION _ => true
  | _ => false

/-- The match strategy resolved by an option token list: the last `method`
option wins, `mt` is the default when none occurs. -/
def resolved_match_type (mt : event_filter_match_type) (toks : List (List Char)) :
    event_filter_match_type :=
  toks.foldl
    (fun m t =>
      match parse_filter_option t with
      | .OPT_METHOD m' => m'
      | _ => m) mt

/-- The include/exclude routing resolved by an option token list: the last
`action` option wins, `ex` (the leading-`!` decision) is the default. -/
def resolved_is_exclude (ex : Bool) (toks : List (List Char)) : Bool :=
  toks.foldl
    (fun e t =>
      match parse_filter_option t with
      | .OPT_ACTION ex' => ex'
      | _ => e) ex

/-- Failure conditions of `add_filter` rendered from claim C4's words: value
null; legacy pattern empty after stripping `!`; malformed advanced option
list (nothing after the `(`, or not `)`-terminated, or an empty option list);
a rejected option token (an unknown option, a recognised option without a
parenthesised value, an unknown `action`/`method` value, or an empty
`name`/`header` value — the claim's "unknown option token" and "name or
header option value is empty" conditions together); a resolved strategy other
than `none` with an empty pattern; a resolved strategy `none` with a
non-empty pattern; a resolved strategy `none` with neither name nor header;
or a failing regex compilation.  The claim does NOT list an empty declaration
name, which is why this definition is compared against `add_filter` with that
case added separately. -/
def add_filter_claimed_failure (regcomp : List Char → Option (List Char → Bool))
    (criteria : List Char) (filter_pattern : Option (List Char)) : Prop :=
  match filter_pattern with
  | Option.none => True
  | some fp0 =>
    let fp := if fp0.head? = some '!' then fp0.tail else fp0
    match strstr_suffix ['('] criteria with
    | Option.none => fp = [] ∨ regcomp fp = Option.none
    | some options_start =>
      let temp := ast_strip_discarded options_start.tail
      let toks := strtok_all option_delims temp
      temp = [] ∨
      ¬ List.isSuffixOf [')'] temp = true ∨
      (∃ t ∈ toks, parse_filter_option t = .OPT_BAD) ∨
      toks = [] ∨
      (resolved_match_type .FILTER_MATCH_NONE toks ≠ .FILTER_MATCH_NONE ∧ fp = []) ∨
      (resolved_match_type .FILTER_MATCH_NONE toks = .FILTER_MATCH_NONE ∧ fp ≠ []) ∨
      (resolved_match_type .FILTER_MATCH_NONE toks = .FILTER_MATCH_NONE ∧
        toks.any is_name_option = false ∧ toks.any is_header_option = false) ∨
      (resolved_match_type .FILTER_MATCH_NONE toks = .FILTER_MATCH_REGEX ∧
        fp ≠ [] ∧ regcomp fp = Option.none)

/-! ## Body parser / enricher (`ami_body_to_json`, lines 808-853) -/

/-- Model of jansson's `ast_json_object_set` on an object kept as an ordered
key/value list: replace the value in place when the key exists (the key keeps
its original position), append otherwise. -/
def ast_json_object_set (obj : List (List Char × List Char)) (k v : List Char) :
    List (List Char × List Char) :=
  if obj.any (fun kv => decide (kv.1 = k)) then
    obj.map (fun kv => if kv.1 = k then (k, v) else kv)
  else
    obj ++ [(k, v)]

/-- The two-character header separator searched by
`strstr(line, ": ")`. -/
def colon_space : List Char := [':', ' ']

/-- Splitting of one body line at the FIRST occurrence of `": "`, as
`ami_body_to_json` does with `strstr` plus `*sep = '\0'`: `none` when the
separator does not occur (the line is skipped), otherwise the text before the
first separator and the entire text after it. -/
def split_header_line : List Char → Option (List Char × List Char)
  | [] => Option.none
  | c :: rest =>
    if List.isPrefixOf colon_space (c :: rest) then some ([], rest.tail)
    else
      match split_header_line rest with
      | some kv => some (c :: kv.1, kv.2)
      | Option.none => Option.none

/-- The identification fields `ami_body_to_json` injects before parsing the
body: `Event`, `EntityID` (the formatted `ast_eid_default`, passed here as a
parameter) and, when configured non-empty, `SystemName`
(`ast_config_AST_SYSTEM_NAME`). -/
def injected_fields (entity_id system_name event : List Char) :
    List (List Char × List Char) :=
  let json := ast_json_object_set [] "Event".data event
  let json := ast_json_object_set json "EntityID".data entity_id
  if system_name = [] then json
  else ast_json_object_set json "SystemName".data system_name

/-- Model of `ami_body_to_json`: inject the identification fields, then walk
the CRLF-separated body lines, skipping lines without `": "` and setting a
field for each line that has one. -/
def ami_body_to_json (entity_id system_name event body : List Char) :
    List (List Char × List Char) :=
  (strtok_all crlf_delims body).foldl
    (fun json line =>
      if line.isEmpty then json
      else
        match split_header_line line with
        | Option.none => json
        | some kv => ast_json_object_set json kv.1 kv.2)
    (injected_fields entity_id system_name event)

/-- Field lookup in the ordered-object model (jansson's
`json_object_get`). -/
def json_lookup (obj : List (List Char × List Char)) (k : List Char) :
    Option (List Char) :=
  (obj.find? (fun kv => decide (kv.1 = k))).map (fun kv => kv.2)

/-- The (key, value) pairs the parsing phase of `ami_body_to_json` extracts
from a body, in body order. -/
def parsed_fields (body : List Char) : List (List Char × List Char) :=
  (strtok_all crlf_delims body).filterMap split_header_line

/-! ## Concrete values used to instantiate theorems -/

/-- An entry holding only a literal pattern, as `add_filter` builds for the
non-regex match types. -/
def literal_entry (mt : event_filter_match_type) (pattern : Option (List Char)) :
    event_filter_entry :=
  { match_type := mt, regex_filter := Option.none, string_filter := pattern,
    event_name := Option.none, header_name := Option.none }

/-- Include entry of the spec's example: body contains "Channel: PJSIP/". -/
def entry_contains_pjsip : event_filter_entry :=
  literal_entry .FILTER_MATCH_CONTAINS (some "Channel: PJSIP/".data)

/-- Exclude entry of the spec's example: body contains "CallerIDNum: 100". -/
def entry_contains_cid100 : event_filter_entry :=
  literal_entry .FILTER_MATCH_CONTAINS (some "CallerIDNum: 100".data)

/-- Entry restricted to the `Channel:` header with a starts_with pattern. -/
def entry_header_channel : event_filter_entry :=
  { match_type := .FILTER_MATCH_STARTS_WITH, regex_filter := Option.none,
    string_filter := some "Local/".data, event_name := Option.none,
    header_name := some "Channel:".data }

/-- Sample AMI body used by the witnesses. -/
def sample_body : List Char :=
  "Channel: PJSIP/1000-0001\r\nCallerIDNum: 1000\r\nContext: default\r\n".data

/-- The entry compiled from the legacy declaration
`eventfilter = !abc` under `regcomp_any`. -/
def legacy_entry_demo : event_filter_entry :=
  { match_type := .FILTER_MATCH_REGEX, regex_filter := some (fun _ => true),
    string_filter := Option.none, event_name := Option.none,
    header_name := Option.none }

/-- The entry compiled from
`eventfilter(action(include),name(Newchannel)) = !`. -/
def advanced_entry_demo : event_filter_entry :=
  { match_type := .FILTER_MATCH_NONE, regex_filter := Option.none,
    string_filter := Option.none, event_name := some "Newchannel".data,
    header_name := Option.none }

/-- A small declaration set (one legacy include, one advanced exclude) used to
instantiate the compiler-level theorems. -/
def demo_decls : List (List Char × Option (List Char)) :=
  [( "eventfilter".data, some "Event: Newchannel".data),
   ( "eventfilter(action(exclude),header(Channel),method(starts_with))".data,
     some "Local/".data)]

/-! ## Helper lemmas -/

theorem isPrefixOf_eq_true_iff (l₁ l₂ : List Char) :
    List.isPrefixOf l₁ l₂ = true ↔ l₁ <+: l₂ :=
  List.isPrefixOf_iff_prefix

theorem isSuffixOf_eq_true_iff (l₁ l₂ : List Char) :
    List.isSuffixOf l₁ l₂ = true ↔ l₁ <:+ l₂ :=
  List.isSuffixOf_iff_suffix

/-- Tokens produced by `strtok_aux` are never empty. -/
theorem strtok_aux_ne_nil (d : List Char) :
    ∀ (s acc t : List Char), t ∈ strtok_aux d s acc → t ≠ []
  | [], acc, t => by
    intro ht
    unfold strtok_aux at ht
    by_cases hacc : acc = []
    · simp [hacc] at ht
    · simp [hacc] at ht
      subst ht
      simpa using hacc
  | c :: rest, acc, t => by
    intro ht
    unfold strtok_aux at ht
    by_cases hc : c ∈ d
    · by_cases hacc : acc = []
      · simp [hc, hacc] at ht
        exact strtok_aux_ne_nil d rest [] t ht
      · simp [hc, hacc] at ht
        rcases ht with ht | ht
        · subst ht
          simpa using hacc
        · exact strtok_aux_ne_nil d rest [] t ht
    · simp [hc] at ht
      exact strtok_aux_ne_nil d rest (c :: acc) t ht

/-- Tokens produced by the `strtok_r` loop are never empty. -/
theorem strtok_all_ne_nil (d s t : List Char) (h : t ∈ strtok_all d s) : t ≠ [] :=
  strtok_aux_ne_nil d s [] t h

/-- A string without delimiter characters tokenises to the single token
`acc.reverse ++ s` (when non-trivial). -/
theorem strtok_aux_no_delims (d : List Char) :
    ∀ (s acc : List Char), (∀ c ∈ s, c ∉ d) →
      strtok_aux d s acc =
        if acc.reverse ++ s = [] then [] else [acc.reverse ++ s]
  | [], acc => by
    intro _
    unfold strtok_aux
    by_cases hacc : acc = []
    · subst hacc; simp
    · simp [hacc]
  | c :: rest, acc => by
    intro h
    unfold strtok_aux
    have hc : c ∉ d := h c (by simp)
    rw [strtok_aux_no_delims d rest (c :: acc) (fun x hx => h x (by simp [hx]))]
    simp [hc]

/-- A non-empty string without delimiter characters is one whole token. -/
theorem strtok_all_no_delims (d s : List Char) (hs : s ≠ [])
    (h : ∀ c ∈ s, c ∉ d) : strtok_all d s = [s] := by
  unfold strtok_all
  rw [strtok_aux_no_delims d s [] h]
  simp [hs]

/-- Reading of `strstr(s, pat) != NULL` as an infix test. -/
theorem strstr_suffix_isSome_iff (pat s : List Char) :
    (strstr_suffix pat s).isSome = true ↔ pat <:+: s := by
  induction s with
  | nil =>
    unfold strstr_suffix
    by_cases hp : pat = []
    · simp [hp]
    · simp [hp, List.infix_nil, List.isEmpty_iff]
  | cons c rest ih =>
    unfold strstr_suffix
    by_cases hp : List.isPrefixOf pat (c :: rest) = true
    · simp only [hp, if_true, Option.isSome_some, true_iff]
      exact ((isPrefixOf_eq_true_iff pat (c :: rest)).1 hp).isInfix
    · rw [if_neg hp, List.infix_cons_iff]
      constructor
      · intro hs
        exact Or.inr (ih.1 hs)
      · rintro (hpre | hinf)
        · exact absurd ((isPrefixOf_eq_true_iff pat (c :: rest)).2 hpre) hp
        · exact ih.2 hinf

/-! ## Claim theorems -/

/-- C1: `should_send_event` sends everything when both sets are empty; with
only includes it sends iff some include entry matches; with only excludes it
sends iff no exclude entry matches; with both it sends iff some include entry
matches and no exclude entry matches. -/
theorem should_send_event_policy (includefilters excludefilters : List event_filter_entry)
    (event body : List Char) :
    (includefilters = [] → excludefilters = [] →
      should_send_event includefilters excludefilters event body = true)
    ∧ (includefilters ≠ [] → excludefilters = [] →
      (should_send_event includefilters excludefilters event body = true ↔
        ∃ e ∈ includefilters, filter_cmp_fn e event body = true))
    ∧ (includefilters = [] → excludefilters ≠ [] →
      (should_send_event includefilters excludefilters event body = true ↔
        ¬ ∃ e ∈ excludefilters, filter_cmp_fn e event body = true))
    ∧ (includefilters ≠ [] → excludefilters ≠ [] →
      (should_send_event includefilters excludefilters event body = true ↔
        (∃ e ∈ includefilters, filter_cmp_fn e event body = true) ∧
          ¬ ∃ e ∈ excludefilters, filter_cmp_fn e event body = true)) := by
  unfold should_send_event
  refine ⟨fun h1 h2 => ?_, fun h1 h2 => ?_, fun h1 h2 => ?_, fun h1 h2 => ?_⟩ <;>
    simp [h1, h2, List.length_eq_zero, List.any_eq_true]

/-- C1 witness: the four branches of the policy at concrete filter sets. -/
theorem should_send_event_policy_witness :
    should_send_event [] [] "Newchannel".data sample_body = true
    ∧ (should_send_event [entry_contains_pjsip] [] "Newchannel".data sample_body = true ↔
        ∃ e ∈ [entry_contains_pjsip], filter_cmp_fn e "Newchannel".data sample_body = true)
    ∧ (should_send_event [] [entry_contains_cid100] "Newchannel".data sample_body = true ↔
        ¬ ∃ e ∈ [entry_contains_cid100], filter_cmp_fn e "Newchannel".data sample_body = true)
    ∧ (should_send_event [entry_contains_pjsip] [entry_contains_cid100] "Newchannel".data
          sample_body = true ↔
        (∃ e ∈ [entry_contains_pjsip], filter_cmp_fn e "Newchannel".data sample_body = true) ∧
          ¬ ∃ e ∈ [entry_contains_cid100], filter_cmp_fn e "Newchannel".data sample_body = true) :=
  ⟨(should_send_event_policy [] [] "Newchannel".data sample_body).1 rfl rfl,
   (should_send_event_policy [entry_contains_pjsip] [] "Newchannel".data sample_body).2.1
     (by simp) rfl,
   (should_send_event_policy [] [entry_contains_cid100] "Newchannel".data sample_body).2.2.1
     rfl (by simp),
   (should_send_event_policy [entry_contains_pjsip] [entry_contains_cid100] "Newchannel".data
       sample_body).2.2.2 (by simp) (by simp)⟩

/-- C2: with no `header_name`, an entry matches iff the event-name gate passes
and the strategy accepts the full raw body, except that an empty body matches
only under the `none` strategy. -/
theorem filter_cmp_fn_full_body (entry : event_filter_entry) (event body : List Char)
    (h : entry.header_name = Option.none) :
    filter_cmp_fn entry event body = true ↔
      ((entry.event_name = Option.none ∨ entry.event_name = some event) ∧
        (if body = [] then entry.match_type = .FILTER_MATCH_NONE
         else match_eventdata entry body = true)) := by
  unfold filter_cmp_fn
  rw [h]
  cases hen : entry.event_name with
  | none =>
    by_cases hb : body = []
    · simp [hb]
    · simp [hb, List.isEmpty_iff]
  | some en =>
    by_cases hb : body = []
    · simp [hb, hen]
      exact fun _ => eq_comm
    · simp [hb, hen, List.isEmpty_iff]
      exact fun _ => eq_comm

/-- C2 witness: a contains entry against the sample body, and the empty-body
special case for the none strategy. -/
theorem filter_cmp_fn_full_body_witness :
    (filter_cmp_fn entry_contains_pjsip "Newchannel".data sample_body = true ↔
      ((entry_contains_pjsip.event_name = Option.none ∨
          entry_contains_pjsip.event_name = some "Newchannel".data) ∧
        (if sample_body = [] then entry_contains_pjsip.match_type = .FILTER_MATCH_NONE
         else match_eventdata entry_contains_pjsip sample_body = true)))
    ∧ (filter_cmp_fn (literal_entry .FILTER_MATCH_NONE Option.none) "Newchannel".data [] = true ↔
        (((literal_entry .FILTER_MATCH_NONE Option.none).event_name = Option.none ∨
            (literal_entry .FILTER_MATCH_NONE Option.none).event_name = some "Newchannel".data) ∧
          (if ([] : List Char) = [] then
            (literal_entry .FILTER_MATCH_NONE Option.none).match_type = .FILTER_MATCH_NONE
           else match_eventdata (literal_entry .FILTER_MATCH_NONE Option.none) [] = true))) :=
  ⟨filter_cmp_fn_full_body entry_contains_pjsip "Newchannel".data sample_body rfl,
   filter_cmp_fn_full_body (literal_entry .FILTER_MATCH_NONE Option.none) "Newchannel".data [] rfl⟩

/-- C3: with a `header_name`, an entry matches iff the event-name gate passes
and some CRLF-delimited body line carries the stored header prefix
(case-sensitive, colon included) with a non-empty blank-skipped remainder the
strategy accepts.  The existential makes the search stop at the first
STRATEGY match: an earlier same-named line that fails the strategy (or has an
empty value) does not block a later matching one, and with no such line the
entry does not match. -/
theorem filter_cmp_fn_header_search (entry : event_filter_entry) (hn event body : List Char)
    (h : entry.header_name = some hn) :
    filter_cmp_fn entry event body = true ↔
      ((entry.event_name = Option.none ∨ entry.event_name = some event) ∧
        ∃ line ∈ strtok_all crlf_delims body,
          hn <+: line ∧
          ast_skip_blanks (line.drop hn.length) ≠ [] ∧
          match_eventdata entry (ast_skip_blanks (line.drop hn.length)) = true) := by
  unfold filter_cmp_fn
  rw [h]
  cases hen : entry.event_name with
  | none =>
    simp [hen, List.any_eq_true]
    constructor
    · rintro ⟨line, hmem, ⟨_, h1⟩, h2, h3⟩
      exact ⟨line, hmem, h1, h2, h3⟩
    · rintro ⟨line, hmem, h1, h2, h3⟩
      have hlne : line ≠ [] := fun hl0 => h2 (by simp [hl0, ast_skip_blanks])
      exact ⟨line, hmem, ⟨hlne, h1⟩, h2, h3⟩
  | some en =>
    simp [hen, List.any_eq_true]
    constructor
    · rintro ⟨he, line, hmem, ⟨_, h1⟩, h2, h3⟩
      exact ⟨he.symm, line, hmem, h1, h2, h3⟩
    · rintro ⟨he, line, hmem, h1, h2, h3⟩
      have hlne : line ≠ [] := fun hl0 => h2 (by simp [hl0, ast_skip_blanks])
      exact ⟨he.symm, line, hmem, ⟨hlne, h1⟩, h2, h3⟩

/-- C3 witness: the `Channel:` starts_with entry against a body whose first
`Channel:` line fails the strategy and whose second one passes. -/
theorem filter_cmp_fn_header_search_witness :
    filter_cmp_fn entry_header_channel "Newchannel".data
      "Channel: PJSIP/7\r\nChannel: Local/1\r\n".data = true :=
  (filter_cmp_fn_header_search entry_header_channel "Channel:".data "Newchannel".data
      "Channel: PJSIP/7\r\nChannel: Local/1\r\n".data rfl).2
    ⟨Or.inl rfl,
      "Channel: Local/1".data, by decide, by decide, by decide, by decide⟩

/-- C6: the match strategies on literal patterns are byte equality, literal
prefix/suffix/substring occurrence, and the always-true `none` strategy. -/
theorem match_eventdata_strategies (candidate pattern : List Char) :
    (match_eventdata (literal_entry .FILTER_MATCH_EXACT (some pattern)) candidate = true ↔
      candidate = pattern)
    ∧ (match_eventdata (literal_entry .FILTER_MATCH_STARTS_WITH (some pattern)) candidate = true ↔
      pattern <+: candidate)
    ∧ (match_eventdata (literal_entry .FILTER_MATCH_ENDS_WITH (some pattern)) candidate = true ↔
      pattern <:+ candidate)
    ∧ (match_eventdata (literal_entry .FILTER_MATCH_CONTAINS (some pattern)) candidate = true ↔
      pattern <:+: candidate)
    ∧ match_eventdata (literal_entry .FILTER_MATCH_NONE Option.none) candidate = true := by
  refine ⟨?_, ?_, ?_, ?_, ?_⟩
  · simp [match_eventdata, literal_entry]
  · simp [match_eventdata, literal_entry, isPrefixOf_eq_true_iff]
  · simp [match_eventdata, literal_entry, isSuffixOf_eq_true_iff]
  · simp [match_eventdata, literal_entry, strstr_suffix_isSome_iff]
  · simp [match_eventdata, literal_entry]


/-- C8: a failing `add_filter` call returns -1 and leaves both containers
exactly as they were, so sibling declarations already compiled are unaffected
and a failing declaration can be dropped from a declaration list without
changing the compiled sets. -/
theorem add_filter_failure_preserves_containers
    (regcomp : List Char → Option (List Char → Bool))
    (criteria : List Char) (filter_pattern : Option (List Char))
    (includefilters excludefilters : List event_filter_entry)
    (h : add_filter regcomp criteria filter_pattern = Option.none) :
    add_filter_into regcomp criteria filter_pattern includefilters excludefilters
      = (includefilters, excludefilters, -1)
    ∧ ∀ decls₁ decls₂ : List (List Char × Option (List Char)),
        compile_filters regcomp (decls₁ ++ (criteria, filter_pattern) :: decls₂)
          = compile_filters regcomp (decls₁ ++ decls₂) := by
  constructor
  · unfold add_filter_into
    rw [h]
  · intro d1 d2
    unfold compile_filters
    rw [List.foldl_append, List.foldl_append, List.foldl_cons]
    congr 1
    simp [add_filter_into, h]

/-- C8 witness: the empty legacy declaration fails and changes nothing. -/
theorem add_filter_failure_preserves_containers_witness :
    add_filter_into regcomp_any "eventfilter".data (some []) [entry_contains_pjsip] []
      = ([entry_contains_pjsip], [], -1)
    ∧ ∀ decls₁ decls₂ : List (List Char × Option (List Char)),
        compile_filters regcomp_any (decls₁ ++ ( "eventfilter".data, some []) :: decls₂)
          = compile_filters regcomp_any (decls₁ ++ decls₂) :=
  add_filter_failure_preserves_containers regcomp_any "eventfilter".data (some [])
    [entry_contains_pjsip] [] rfl

/-- C9: recompiling the same declaration set into fresh containers yields
filter-set pairs with identical `should_send_event` verdicts on every event of
any corpus.  In this embedding both compilation and evaluation are pure
functions of their inputs, so the two compiled pairs are even equal. -/
theorem compile_filters_recompile_same_verdicts
    (regcomp : List Char → Option (List Char → Bool))
    (decls : List (List Char × Option (List Char)))
    (p1 p2 : List event_filter_entry × List event_filter_entry)
    (h1 : compile_filters regcomp decls = p1)
    (h2 : compile_filters regcomp decls = p2)
    (corpus : List (List Char × List Char)) :
    corpus.map (fun ev => should_send_event p1.1 p1.2 ev.1 ev.2)
      = corpus.map (fun ev => should_send_event p2.1 p2.2 ev.1 ev.2) := by
  subst h1
  subst h2
  rfl

/-- C9 witness: two compilations of the demo declaration set agree on a
two-event corpus. -/
theorem compile_filters_recompile_same_verdicts_witness :
    [( "Newchannel".data, sample_body), ( "Hangup".data, sample_body)].map
        (fun ev =>
          should_send_event (compile_filters regcomp_any demo_decls).1
            (compile_filters regcomp_any demo_decls).2 ev.1 ev.2)
      = [( "Newchannel".data, sample_body), ( "Hangup".data, sample_body)].map
        (fun ev =>
          should_send_event (compile_filters regcomp_any demo_decls).1
            (compile_filters regcomp_any demo_decls).2 ev.1 ev.2) :=
  compile_filters_recompile_same_verdicts regcomp_any demo_decls
    (compile_filters regcomp_any demo_decls) (compile_filters regcomp_any demo_decls)
    rfl rfl [( "Newchannel".data, sample_body), ( "Hangup".data, sample_body)]

/-- A body line is skipped by the JSON parser exactly when it has no
`": "` separator. -/
theorem split_header_line_eq_none_iff (line : List Char) :
    split_header_line line = Option.none ↔
      ¬ ∃ pre post, line = pre ++ colon_space ++ post := by
  induction line with
  | nil =>
    simp only [split_header_line, true_iff]
    rintro ⟨pre, post, hh⟩
    simp [colon_space] at hh
  | cons c rest ih =>
    unfold split_header_line
    by_cases hp : List.isPrefixOf colon_space (c :: rest) = true
    · rw [if_pos hp]
      obtain ⟨t, ht⟩ := (isPrefixOf_eq_true_iff colon_space (c :: rest)).1 hp
      constructor
      · intro hh
        exact absurd hh (by simp)
      · intro hh
        exact absurd ⟨[], t, by simp [ht.symm]⟩ hh
    · rw [if_neg hp]
      cases hsr : split_header_line rest with
      | none =>
        simp only [true_iff]
        rintro ⟨pre, post, hh⟩
        cases pre with
        | nil =>
          apply hp
          exact (isPrefixOf_eq_true_iff colon_space (c :: rest)).2 ⟨post, by simp [hh]⟩
        | cons p ps =>
          have hrest : rest = ps ++ colon_space ++ post := by
            simpa using congrArg List.tail hh
          exact (ih.1 hsr) ⟨ps, post, hrest⟩
      | some kv =>
        simp only [false_iff, not_not, reduceCtorEq]
        have hin : ¬ split_header_line rest = Option.none := by simp [hsr]
        have hex : ∃ pre post, rest = pre ++ colon_space ++ post := by
          by_contra hc
          exact hin (ih.2 hc)
        obtain ⟨pre, post, hh⟩ := hex
        exact ⟨c :: pre, post, by simp [hh]⟩

/-- When the JSON parser does split a line, the field name is the text before
the FIRST `": "` occurrence (the name itself contains no `": "`) and the
value is the entire remainder. -/
theorem split_header_line_eq_some (line : List Char) :
    ∀ k v, split_header_line line = some (k, v) →
      line = k ++ colon_space ++ v ∧ ¬ ∃ pre post, k = pre ++ colon_space ++ post := by
  induction line with
  | nil => intro k v h; simp [split_header_line] at h
  | cons c rest ih =>
    intro k v h
    unfold split_header_line at h
    by_cases hp : List.isPrefixOf colon_space (c :: rest) = true
    · rw [if_pos hp] at h
      obtain ⟨t, ht⟩ := (isPrefixOf_eq_true_iff colon_space (c :: rest)).1 hp
      obtain ⟨hk, hv⟩ : [] = k ∧ rest.tail = v := by
        simpa using h
      subst hk
      subst hv
      have h1 : (':' : Char) :: ' ' :: t = c :: rest := by
        simpa [colon_space] using ht
      injection h1 with h1a h1b
      subst h1a
      subst h1b
      constructor
      · simp [colon_space]
      · rintro ⟨pre, post, hh⟩
        simp [colon_space] at hh
    · rw [if_neg hp] at h
      cases hsr : split_header_line rest with
      | none => rw [hsr] at h; simp at h
      | some kv =>
        rw [hsr] at h
        obtain ⟨hk, hv⟩ : c :: kv.1 = k ∧ kv.2 = v := by simpa using h
        subst hk
        subst hv
        obtain ⟨ih1, ih2⟩ := ih kv.1 kv.2 (by simp [hsr])
        constructor
        · simp [ih1]
        · rintro ⟨pre, post, hh⟩
          cases pre with
          | nil =>
            apply hp
            apply (isPrefixOf_eq_true_iff colon_space (c :: rest)).2
            have hline : c :: kv.1 = colon_space ++ post := by simpa using hh
            refine ⟨post ++ colon_space ++ kv.2, ?_⟩
            have hassoc :
                colon_space ++ (post ++ colon_space ++ kv.2)
                  = (colon_space ++ post) ++ (colon_space ++ kv.2) := by
              simp
            rw [hassoc, ← hline, ih1]
            simp
          | cons p ps =>
            have : kv.1 = ps ++ colon_space ++ post := by
              simpa using congrArg List.tail hh
            exact ih2 ⟨ps, post, this⟩

/-- Replacing key `k` in the object model leaves lookups of other keys
unchanged. -/
theorem find?_replace_ne (obj : List (List Char × List Char)) (k v k' : List Char)
    (hk : k' ≠ k) :
    (obj.map (fun kv => if kv.1 = k then (k, v) else kv)).find?
        (fun kv => decide (kv.1 = k'))
      = obj.find? (fun kv => decide (kv.1 = k')) := by
  induction obj with
  | nil => rfl
  | cons kv rest ih =>
    rw [List.map_cons, List.find?_cons, List.find?_cons]
    by_cases h1 : kv.1 = k
    · have e1 : decide ((if kv.1 = k then (k, v) else kv).1 = k') = false := by
        simp [h1, Ne.symm hk]
      have e2 : decide (kv.1 = k') = false := by simp [h1, Ne.symm hk]
      rw [e1, e2, ih]
    · have e1 : (if kv.1 = k then (k, v) else kv) = kv := if_neg h1
      rw [e1]
      cases e2 : decide (kv.1 = k') with
      | true => rfl
      | false => rw [ih]

/-- Replacing an existing key `k` makes lookups of `k` find the new value. -/
theorem find?_replace_eq (obj : List (List Char × List Char)) (k v : List Char)
    (hmem : obj.any (fun kv => decide (kv.1 = k)) = true) :
    (obj.map (fun kv => if kv.1 = k then (k, v) else kv)).find?
        (fun kv => decide (kv.1 = k)) = some (k, v) := by
  induction obj with
  | nil => simp at hmem
  | cons kv rest ih =>
    rw [List.map_cons, List.find?_cons]
    by_cases h1 : kv.1 = k
    · have e1 : (if kv.1 = k then (k, v) else kv) = (k, v) := if_pos h1
      rw [e1]
      simp
    · have e1 : (if kv.1 = k then (k, v) else kv) = kv := if_neg h1
      have e2 : decide (kv.1 = k) = false := by simp [h1]
      rw [e1, e2]
      simp only [List.any_cons, e2, Bool.false_or] at hmem
      exact ih hmem

/-- Setting a field and then looking one up is a pointwise function
update: the set key now maps to the new value, every other key is
untouched. -/
theorem json_lookup_set (obj : List (List Char × List Char)) (k v k' : List Char) :
    json_lookup (ast_json_object_set obj k v) k' =
      if k' = k then some v else json_lookup obj k' := by
  unfold ast_json_object_set json_lookup
  by_cases hmem : obj.any (fun kv => decide (kv.1 = k)) = true
  · rw [if_pos hmem]
    by_cases hk : k' = k
    · subst hk
      rw [if_pos rfl, find?_replace_eq obj k' v hmem]
      rfl
    · rw [if_neg hk, find?_replace_ne obj k v k' hk]
  · rw [if_neg hmem]
    by_cases hk : k' = k
    · subst hk
      rw [if_pos rfl, List.find?_append]
      have hnone : obj.find? (fun kv => decide (kv.1 = k')) = Option.none := by
        rw [List.find?_eq_none]
        intro x hx
        simp only [decide_eq_true_eq]
        intro hxx
        exact hmem (List.any_eq_true.2 ⟨x, hx, by simp [hxx]⟩)
      rw [hnone]
      simp
    · rw [if_neg hk, List.find?_append]
      have h2 : ([(k, v)].find? (fun kv => decide (kv.1 = k'))) = Option.none := by
        simp [Ne.symm hk]
      rw [h2]
      simp

/-- Folding `ast_json_object_set` over a pair list realises last-write-wins:
a key written by the pairs ends at its LAST written value, a key never
written keeps its value from the initial object. -/
theorem json_lookup_foldl_set (pairs : List (List Char × List Char))
    (init : List (List Char × List Char)) (k : List Char) :
    json_lookup (pairs.foldl (fun j kv => ast_json_object_set j kv.1 kv.2) init) k
      = match pairs.reverse.find? (fun kv => decide (kv.1 = k)) with
        | some kv => some kv.2
        | Option.none => json_lookup init k := by
  induction pairs generalizing init with
  | nil => simp
  | cons kv rest ih =>
    rw [List.foldl_cons, ih, List.reverse_cons, List.find?_append]
    cases hr : rest.reverse.find? (fun kv => decide (kv.1 = k)) with
    | some kv' => simp
    | none =>
      simp only [Option.none_or]
      rw [json_lookup_set]
      by_cases hk : kv.1 = k
      · simp [hk]
      · have hk2 : ¬ k = kv.1 := fun hh => hk hh.symm
        simp [hk, hk2]

/-- The body walk of `ami_body_to_json` is the fold of `ast_json_object_set`
over exactly the pairs extracted by `parsed_fields`. -/
theorem ami_body_to_json_eq_foldl (entity_id system_name event body : List Char) :
    ami_body_to_json entity_id system_name event body
      = (parsed_fields body).foldl
          (fun j kv => ast_json_object_set j kv.1 kv.2)
          (injected_fields entity_id system_name event) := by
  unfold ami_body_to_json parsed_fields
  generalize injected_fields entity_id system_name event = init
  generalize strtok_all crlf_delims body = lines
  induction lines generalizing init with
  | nil => rfl
  | cons line rest ih =>
    rw [List.foldl_cons, List.filterMap_cons]
    have hstep :
        (if line.isEmpty = true then init
         else
           match split_header_line line with
           | Option.none => init
           | some kv => ast_json_object_set init kv.1 kv.2)
          = match split_header_line line with
            | Option.none => init
            | some kv => ast_json_object_set init kv.1 kv.2 := by
      by_cases hl : line.isEmpty = true
      · have hnone : split_header_line line = Option.none := by
          rw [List.isEmpty_iff.1 hl]
          rfl
        simp [hl, hnone]
      · simp [hl]
    rw [hstep]
    cases hs : split_header_line line with
    | none => rw [ih]
    | some kv => rw [List.foldl_cons, ih]

/-- Setting a field never disturbs the existing key order: the old key
sequence stays a prefix of the new one. -/
theorem set_keeps_key_order (obj : List (List Char × List Char)) (k v : List Char) :
    obj.map Prod.fst <+: (ast_json_object_set obj k v).map Prod.fst := by
  unfold ast_json_object_set
  by_cases hmem : obj.any (fun kv => decide (kv.1 = k)) = true
  · rw [if_pos hmem]
    have : (obj.map (fun kv => if kv.1 = k then (k, v) else kv)).map Prod.fst
        = obj.map Prod.fst := by
      rw [List.map_map]
      apply List.map_congr_left
      intro kv _
      by_cases h1 : kv.1 = k
      · simp [h1]
      · simp [h1]
    rw [this]
  · rw [if_neg hmem, List.map_append]
    exact List.prefix_append _ _

/-- Folding `ast_json_object_set` keeps the initial keys in front. -/
theorem foldl_set_keeps_key_order (pairs : List (List Char × List Char))
    (init : List (List Char × List Char)) :
    init.map Prod.fst
      <+: (pairs.foldl (fun j kv => ast_json_object_set j kv.1 kv.2) init).map Prod.fst := by
  induction pairs generalizing init with
  | nil => exact List.prefix_refl _
  | cons kv rest ih =>
    rw [List.foldl_cons]
    exact (set_keeps_key_order init kv.1 kv.2).trans (ih _)

/-- C7: `ami_body_to_json` splits the body on CRLF; a non-empty line without
the two-character `": "` separator yields no field; a split line's field name
is the text before the FIRST separator and its value the entire text after;
the injected `Event`, `EntityID` and optional `SystemName` fields come before
the parsed fields; and lookups obey last-write-wins, so a body field named
like an injected one overrides its value. -/
theorem ami_body_to_json_spec (entity_id system_name event body : List Char) :
    (∀ line : List Char, split_header_line line = Option.none ↔
      ¬ ∃ pre post, line = pre ++ colon_space ++ post)
    ∧ (∀ line k v : List Char, split_header_line line = some (k, v) →
        line = k ++ colon_space ++ v ∧ ¬ ∃ pre post, k = pre ++ colon_space ++ post)
    ∧ ((injected_fields entity_id system_name event).map Prod.fst
        <+: (ami_body_to_json entity_id system_name event body).map Prod.fst)
    ∧ (∀ k : List Char,
        json_lookup (ami_body_to_json entity_id system_name event body) k
          = match (parsed_fields body).reverse.find? (fun kv => decide (kv.1 = k)) with
            | some kv => some kv.2
            | Option.none => json_lookup (injected_fields entity_id system_name event) k) := by
  refine ⟨split_header_line_eq_none_iff,
    fun line k v => split_header_line_eq_some line k v, ?_, ?_⟩
  · rw [ami_body_to_json_eq_foldl]
    exact foldl_set_keeps_key_order _ _
  · intro k
    rw [ami_body_to_json_eq_foldl, json_lookup_foldl_set]

/-- C7 witness: the parser applied to the line `Event: X` splits at its
separator with the name free of further separators. -/
theorem ami_body_to_json_spec_witness :
    "Event: X".data = "Event".data ++ colon_space ++ "X".data ∧
      ¬ ∃ pre post, "Event".data = pre ++ colon_space ++ post :=
  (ami_body_to_json_spec "11:22:33:44:55:66".data [] "Test".data
      "Event: X\r\n".data).2.1 "Event: X".data "Event".data "X".data (by decide)

/-- C10: a body line `Header:Value` with no blank after the colon is still
eligible for header matching — the tested value is the remainder after the
stored header prefix with leading blanks skipped — while `ami_body_to_json`
contributes no field for the same line because it lacks the `": "`
separator. -/
theorem header_match_vs_parse_asymmetry (entry : event_filter_entry)
    (hn v entity_id system_name event e : List Char)
    (hh : entry.header_name = some hn) (hev : entry.event_name = Option.none)
    (hcr : ∀ c ∈ hn ++ v, c ∉ crlf_delims)
    (hv : ast_skip_blanks v ≠ [])
    (hsep : ¬ ∃ pre post, hn ++ v = pre ++ colon_space ++ post) :
    filter_cmp_fn entry e (hn ++ v) = match_eventdata entry (ast_skip_blanks v)
    ∧ ami_body_to_json entity_id system_name event (hn ++ v)
        = injected_fields entity_id system_name event := by
  have hvne : v ≠ [] := by
    intro h0
    apply hv
    simp [h0, ast_skip_blanks]
  have hlinene : hn ++ v ≠ [] := by simp [hvne]
  have htok : strtok_all crlf_delims (hn ++ v) = [hn ++ v] :=
    strtok_all_no_delims _ _ hlinene hcr
  constructor
  · unfold filter_cmp_fn
    rw [hh, hev, htok]
    have hpre : List.isPrefixOf hn (hn ++ v) = true :=
      (isPrefixOf_eq_true_iff hn (hn ++ v)).2 ( List.prefix_append hn v)
    have h1 : (hn ++ v).isEmpty = false := by
      cases hsv : hn ++ v with
      | nil => exact absurd hsv hlinene
      | cons a b => rfl
    have h2 : (ast_skip_blanks v).isEmpty = false := by
      cases hsv : ast_skip_blanks v with
      | nil => exact absurd hsv hv
      | cons a b => rfl
    simp [hpre, List.drop_left, h1, h2]
  · rw [ami_body_to_json_eq_foldl]
    have hparsed : parsed_fields (hn ++ v) = [] := by
      unfold parsed_fields
      rw [htok]
      simp [List.filterMap_cons, (split_header_line_eq_none_iff (hn ++ v)).2 hsep]
    rw [hparsed]
    rfl

/-- C10 witness: the spaceless line `Channel:Local/9` is matched through the
`Channel:` header entry but parsed to no field. -/
theorem header_match_vs_parse_asymmetry_witness :
    filter_cmp_fn entry_header_channel "Newchannel".data
        ( "Channel:".data ++ "Local/9".data)
      = match_eventdata entry_header_channel (ast_skip_blanks "Local/9".data)
    ∧ ami_body_to_json "11:22:33:44:55:66".data [] "Newchannel".data
        ( "Channel:".data ++ "Local/9".data)
      = injected_fields "11:22:33:44:55:66".data [] "Newchannel".data :=
  header_match_vs_parse_asymmetry entry_header_channel "Channel:".data "Local/9".data
    "11:22:33:44:55:66".data [] "Newchannel".data "Newchannel".data rfl rfl
    (by decide) (by decide)
    ((split_header_line_eq_none_iff ( "Channel:".data ++ "Local/9".data)).1 (by decide))

/-- One loop iteration fails exactly on a rejected token. -/
theorem apply_filter_option_eq_none_iff (st : filter_options_state) (t : List Char) :
    apply_filter_option st t = Option.none ↔ parse_filter_option t = .OPT_BAD := by
  unfold apply_filter_option
  cases hp : parse_filter_option t <;> simp

/-- On an accepted token the loop iteration computes the total update. -/
theorem apply_filter_option_eq_total (st : filter_options_state) (t : List Char)
    (hb : parse_filter_option t ≠ .OPT_BAD) :
    apply_filter_option st t = some (apply_filter_option_total st t) := by
  unfold apply_filter_option apply_filter_option_total
  cases hp : parse_filter_option t with
  | OPT_BAD => exact absurd hp hb
  | OPT_ACTION ex => rfl
  | OPT_NAME v => rfl
  | OPT_HEADER v => rfl
  | OPT_METHOD m => rfl

/-- The option loop fails exactly when some token is rejected. -/
theorem foldlM_apply_eq_none_iff (toks : List (List Char)) (st : filter_options_state) :
    toks.foldlM apply_filter_option st = Option.none ↔
      ∃ t ∈ toks, parse_filter_option t = .OPT_BAD := by
  induction toks generalizing st with
  | nil => simp
  | cons t rest ih =>
    rw [List.foldlM_cons]
    by_cases hb : parse_filter_option t = .OPT_BAD
    · have ha : apply_filter_option st t = Option.none :=
        (apply_filter_option_eq_none_iff st t).2 hb
      rw [ha]
      constructor
      · intro _
        exact ⟨t, List.mem_cons_self t rest, hb⟩
      · intro _
        rfl
    · rw [apply_filter_option_eq_total st t hb]
      show rest.foldlM apply_filter_option (apply_filter_option_total st t)
          = Option.none ↔ _
      rw [ih]
      constructor
      · rintro ⟨t', ht', hpt'⟩
        exact ⟨t', List.mem_cons_of_mem _ ht', hpt'⟩
      · rintro ⟨t', ht', hpt'⟩
        rcases List.mem_cons.1 ht' with rfl | hm
        · exact absurd hpt' hb
        · exact ⟨t', hm, hpt'⟩

/-- A successful option loop computes the fold of the total update. -/
theorem foldlM_apply_eq_some (toks : List (List Char)) :
    ∀ (st st' : filter_options_state),
      toks.foldlM apply_filter_option st = some st' →
      st' = toks.foldl apply_filter_option_total st := by
  induction toks with
  | nil =>
    intro st st' h
    simpa using h.symm
  | cons t rest ih =>
    intro st st' h
    rw [List.foldlM_cons] at h
    by_cases hb : parse_filter_option t = .OPT_BAD
    · rw [(apply_filter_option_eq_none_iff st t).2 hb] at h
      simp at h
    · rw [apply_filter_option_eq_total st t hb] at h
      replace h : rest.foldlM apply_filter_option (apply_filter_option_total st t)
          = some st' := h
      rw [List.foldl_cons]
      exact ih _ _ h

/-- Flag `options_found` after the loop: set exactly when some token was
accepted. -/
theorem foldl_total_options_found (toks : List (List Char)) :
    ∀ st : filter_options_state,
      (toks.foldl apply_filter_option_total st).options_found
        = (st.options_found || toks.any is_known_option) := by
  induction toks with
  | nil => intro st; simp
  | cons t rest ih =>
    intro st
    rw [List.foldl_cons, ih, List.any_cons]
    have hstep : (apply_filter_option_total st t).options_found
        = (st.options_found || is_known_option t) := by
      unfold apply_filter_option_total is_known_option
      cases parse_filter_option t <;> simp
    rw [hstep, Bool.or_assoc]

/-- Flag `name_found` after the loop: set exactly when some `name` option
occurred. -/
theorem foldl_total_name_found (toks : List (List Char)) :
    ∀ st : filter_options_state,
      (toks.foldl apply_filter_option_total st).name_found
        = (st.name_found || toks.any is_name_option) := by
  induction toks with
  | nil => intro st; simp
  | cons t rest ih =>
    intro st
    rw [List.foldl_cons, ih, List.any_cons]
    have hstep : (apply_filter_option_total st t).name_found
        = (st.name_found || is_name_option t) := by
      unfold apply_filter_option_total is_name_option
      cases parse_filter_option t <;> simp
    rw [hstep, Bool.or_assoc]

/-- Flag `header_found` after the loop: set exactly when some `header` option
occurred. -/
theorem foldl_total_header_found (toks : List (List Char)) :
    ∀ st : filter_options_state,
      (toks.foldl apply_filter_option_total st).header_found
        = (st.header_found || toks.any is_header_option) := by
  induction toks with
  | nil => intro st; simp
  | cons t rest ih =>
    intro st
    rw [List.foldl_cons, ih, List.any_cons]
    have hstep : (apply_filter_option_total st t).header_found
        = (st.header_found || is_header_option t) := by
      unfold apply_filter_option_total is_header_option
      cases parse_filter_option t <;> simp
    rw [hstep, Bool.or_assoc]

/-- Field `match_type` after the loop is the resolved strategy. -/
theorem foldl_total_match_type (toks : List (List Char)) :
    ∀ st : filter_options_state,
      (toks.foldl apply_filter_option_total st).match_type
        = resolved_match_type st.match_type toks := by
  induction toks with
  | nil => intro st; rfl
  | cons t rest ih =>
    intro st
    rw [List.foldl_cons, ih]
    unfold resolved_match_type
    rw [List.foldl_cons]
    have hstep : (apply_filter_option_total st t).match_type
        = match parse_filter_option t with
          | .OPT_METHOD m' => m'
          | _ => st.match_type := by
      unfold apply_filter_option_total
      cases parse_filter_option t <;> rfl
    rw [hstep]

/-- Field `is_exclude` after the loop is the resolved routing. -/
theorem foldl_total_is_exclude (toks : List (List Char)) :
    ∀ st : filter_options_state,
      (toks.foldl apply_filter_option_total st).is_exclude
        = resolved_is_exclude st.is_exclude toks := by
  induction toks with
  | nil => intro st; rfl
  | cons t rest ih =>
    intro st
    rw [List.foldl_cons, ih]
    unfold resolved_is_exclude
    rw [List.foldl_cons]
    have hstep : (apply_filter_option_total st t).is_exclude
        = match parse_filter_option t with
          | .OPT_ACTION ex' => ex'
          | _ => st.is_exclude := by
      unfold apply_filter_option_total
      cases parse_filter_option t <;> rfl
    rw [hstep]

/-- Without a `method` option the resolved strategy is the default. -/
theorem resolved_match_type_no_method (toks : List (List Char)) :
    ∀ mt : event_filter_match_type,
      (∀ t ∈ toks, is_method_option t = false) →
      resolved_match_type mt toks = mt := by
  induction toks with
  | nil => intro mt _; rfl
  | cons t rest ih =>
    intro mt h
    unfold resolved_match_type
    rw [List.foldl_cons]
    have hstep : (match parse_filter_option t with
        | .OPT_METHOD m' => m'
        | _ => mt) = mt := by
      have hm := h t (by simp)
      unfold is_method_option at hm
      cases hp : parse_filter_option t <;> simp_all
    rw [hstep]
    exact ih mt (fun x hx => h x (by simp [hx]))

/-- The last `action` option decides the resolved routing. -/
theorem resolved_is_exclude_last_action (t1 : List (List Char)) (t : List Char)
    (t2 : List (List Char)) (ex ex' : Bool)
    (hact : parse_filter_option t = .OPT_ACTION ex')
    (hafter : ∀ t' ∈ t2, is_action_option t' = false) :
    resolved_is_exclude ex (t1 ++ t :: t2) = ex' := by
  unfold resolved_is_exclude
  rw [List.foldl_append, List.foldl_cons, hact]
  induction t2 with
  | nil => rfl
  | cons u rest ih =>
    rw [List.foldl_cons]
    have hu := hafter u (by simp)
    unfold is_action_option at hu
    have hstep : (match parse_filter_option u with
        | .OPT_ACTION e' => e'
        | _ => ex') = ex' := by
      cases hp : parse_filter_option u <;> simp_all
    rw [hstep]
    exact ih (fun x hx => hafter x (by simp [hx]))

/-- The final compilation step fails exactly on a failing regex
compilation. -/
theorem compile_filter_pattern_eq_none_iff
    (regcomp : List Char → Option (List Char → Bool))
    (mt : event_filter_match_type) (ename hname : Option (List Char))
    (ex : Bool) (fp : List Char) :
    compile_filter_pattern regcomp mt ename hname ex fp = Option.none ↔
      (fp ≠ [] ∧ mt = .FILTER_MATCH_REGEX ∧ regcomp fp = Option.none) := by
  unfold compile_filter_pattern
  by_cases h1 : fp = []
  · simp [h1]
  · rw [if_neg h1]
    by_cases h2 : mt = .FILTER_MATCH_REGEX
    · rw [if_pos h2]
      cases hr : regcomp fp with
      | none => simp [h1, h2, hr]
      | some f => simp [h1, h2, hr]
    · simp [h1, h2]

/-- Reading an early-exit `if` chain returning `none`. -/
theorem ite_none_iff {α : Type} (c : Prop) [Decidable c] (x : Option α) :
    (if c then Option.none else x) = Option.none ↔ c ∨ x = Option.none := by
  by_cases hc : c <;> simp [hc]

/-- Failure of the advanced branch of `add_filter`, characterised over the
token list of the option text. -/
theorem add_filter_advanced_eq_none_iff
    (regcomp : List Char → Option (List Char → Bool))
    (temp : List Char) (ex : Bool) (fp : List Char) :
    add_filter_advanced regcomp temp ex fp = Option.none ↔
      (temp = [] ∨
       ¬ List.isSuffixOf [')'] temp = true ∨
       (∃ t ∈ strtok_all option_delims temp, parse_filter_option t = .OPT_BAD) ∨
       strtok_all option_delims temp = [] ∨
       (resolved_match_type .FILTER_MATCH_NONE (strtok_all option_delims temp)
          ≠ .FILTER_MATCH_NONE ∧ fp = []) ∨
       (resolved_match_type .FILTER_MATCH_NONE (strtok_all option_delims temp)
          = .FILTER_MATCH_NONE ∧ fp ≠ []) ∨
       (resolved_match_type .FILTER_MATCH_NONE (strtok_all option_delims temp)
          = .FILTER_MATCH_NONE ∧
        (strtok_all option_delims temp).any is_name_option = false ∧
        (strtok_all option_delims temp).any is_header_option = false) ∨
       (resolved_match_type .FILTER_MATCH_NONE (strtok_all option_delims temp)
          = .FILTER_MATCH_REGEX ∧ fp ≠ [] ∧ regcomp fp = Option.none)) := by
  unfold add_filter_advanced
  by_cases h1 : temp = []
  · simp [h1]
  rw [if_neg h1]
  by_cases h2 : ¬ List.isSuffixOf [')'] temp = true
  · rw [if_pos h2]
    constructor
    · intro _
      exact Or.inr (Or.inl h2)
    · intro _
      rfl
  rw [if_neg h2]
  cases hfold : (strtok_all option_delims temp).foldlM apply_filter_option
      (init_options_state ex) with
  | none =>
    have hbad := (foldlM_apply_eq_none_iff (strtok_all option_delims temp) _).1 hfold
    constructor
    · intro _
      exact Or.inr (Or.inr (Or.inl hbad))
    · intro _
      rfl
  | some st =>
    have hnobad : ¬ ∃ t ∈ strtok_all option_delims temp,
        parse_filter_option t = .OPT_BAD := by
      intro hex
      rw [(foldlM_apply_eq_none_iff (strtok_all option_delims temp) _).2 hex] at hfold
      exact Option.noConfusion hfold
    have hst : st = (strtok_all option_delims temp).foldl apply_filter_option_total
        (init_options_state ex) :=
      foldlM_apply_eq_some (strtok_all option_delims temp) _ st hfold
    have hof : st.options_found = (strtok_all option_delims temp).any is_known_option := by
      rw [hst, foldl_total_options_found]
      simp [init_options_state]
    have hnf : st.name_found = (strtok_all option_delims temp).any is_name_option := by
      rw [hst, foldl_total_name_found]
      simp [init_options_state]
    have hhf : st.header_found = (strtok_all option_delims temp).any is_header_option := by
      rw [hst, foldl_total_header_found]
      simp [init_options_state]
    have hmt : st.match_type
        = resolved_match_type .FILTER_MATCH_NONE (strtok_all option_delims temp) := by
      rw [hst, foldl_total_match_type]
      rfl
    have hAe : (strtok_all option_delims temp).any is_known_option = false ↔
        strtok_all option_delims temp = [] := by
      constructor
      · intro hfalse
        cases htk : strtok_all option_delims temp with
        | nil => rfl
        | cons a b =>
          have hnb : parse_filter_option a ≠ .OPT_BAD :=
            fun hb => hnobad ⟨a, by simp [htk], hb⟩
          have hk : is_known_option a = true := by
            unfold is_known_option
            cases hpa : parse_filter_option a <;> simp_all
          rw [htk, List.any_cons, hk] at hfalse
          simp at hfalse
      · intro hnil
        simp [hnil]
    show (if st.options_found = false then Option.none
      else if fp = [] ∧ st.match_type ≠ .FILTER_MATCH_NONE then Option.none
      else if fp ≠ [] ∧ st.match_type = .FILTER_MATCH_NONE then Option.none
      else if st.name_found = false ∧ st.header_found = false ∧
          st.match_type = .FILTER_MATCH_NONE then Option.none
      else compile_filter_pattern regcomp st.match_type st.event_name
        st.header_name st.is_exclude fp) = Option.none ↔ _
    simp only [hof, hnf, hhf, hmt]
    rw [ite_none_iff, ite_none_iff, ite_none_iff, ite_none_iff,
      compile_filter_pattern_eq_none_iff]
    constructor
    · rintro (hc | hc | hc | hc | hc)
      · exact Or.inr (Or.inr (Or.inr (Or.inl (hAe.1 hc))))
      · exact Or.inr (Or.inr (Or.inr (Or.inr (Or.inl ⟨hc.2, hc.1⟩))))
      · exact Or.inr (Or.inr (Or.inr (Or.inr (Or.inr (Or.inl ⟨hc.2, hc.1⟩)))))
      · exact Or.inr (Or.inr (Or.inr (Or.inr (Or.inr (Or.inr (Or.inl
          ⟨hc.2.2, hc.1, hc.2.1⟩))))))
      · exact Or.inr (Or.inr (Or.inr (Or.inr (Or.inr (Or.inr (Or.inr
          ⟨hc.2.1, hc.1, hc.2.2⟩))))))
    · rintro (hc | hc | hc | hc | hc | hc | hc | hc)
      · exact absurd hc h1
      · exact absurd hc h2
      · exact absurd hc hnobad
      · exact Or.inl (hAe.2 hc)
      · exact Or.inr (Or.inl ⟨hc.2, hc.1⟩)
      · exact Or.inr (Or.inr (Or.inl ⟨hc.2, hc.1⟩))
      · exact Or.inr (Or.inr (Or.inr (Or.inl ⟨hc.2.1, hc.2.2, hc.1⟩)))
      · exact Or.inr (Or.inr (Or.inr (Or.inr ⟨hc.2.1, hc.1, hc.2.2⟩)))

/-- C4 counterexample: the empty declaration name makes `add_filter` fail
although none of the failure conditions enumerated by the claim holds for
that input. -/
theorem add_filter_empty_criteria_cex :
    add_filter regcomp_any [] (some ['x']) = Option.none
    ∧ ¬ add_filter_claimed_failure regcomp_any [] (some ['x']) := by
  constructor
  · rfl
  · unfold add_filter_claimed_failure
    simp [strstr_suffix, regcomp_any]

/-- C4 (amended): `add_filter` fails exactly when the declaration name is
empty (the one case the claim does not list) or one of the claim's failure
conditions holds: null value; empty legacy pattern after `!`-stripping;
malformed or empty advanced option list; a rejected option token; strategy /
pattern-presence mismatches; strategy `none` without name or header; or a
failing regex compilation.  Every other declaration compiles. -/
theorem add_filter_failure_characterisation
    (regcomp : List Char → Option (List Char → Bool))
    (criteria : List Char) (filter_pattern : Option (List Char)) :
    add_filter regcomp criteria filter_pattern = Option.none ↔
      criteria = [] ∨ add_filter_claimed_failure regcomp criteria filter_pattern := by
  unfold add_filter add_filter_claimed_failure
  by_cases h0 : criteria = []
  · simp [h0]
  rw [if_neg h0]
  cases filter_pattern with
  | none => simp [h0]
  | some fp0 =>
    simp only [h0, false_or]
    cases hs : strstr_suffix ['('] criteria with
    | none =>
      by_cases hfp : (if fp0.head? = some '!' then fp0.tail else fp0) = []
      · simp [hfp]
      · rw [if_neg hfp, compile_filter_pattern_eq_none_iff]
        simp [hfp]
    | some ostart =>
      exact add_filter_advanced_eq_none_iff regcomp _ _ _

/-- Shape of a successfully compiled entry: the final step copies the
resolved strategy, names and routing, stores a literal pattern only for
non-regex strategies, and a compiled regex only for the regex strategy. -/
theorem compile_filter_pattern_eq_some_shape
    (regcomp : List Char → Option (List Char → Bool))
    (mt : event_filter_match_type) (ename hname : Option (List Char))
    (ex : Bool) (fp : List Char) (entry : event_filter_entry) (excl : Bool)
    (h : compile_filter_pattern regcomp mt ename hname ex fp = some (entry, excl)) :
    entry.match_type = mt ∧ entry.event_name = ename ∧ entry.header_name = hname ∧
    excl = ex ∧
    entry.string_filter
      = (if fp = [] then Option.none
         else if mt = .FILTER_MATCH_REGEX then Option.none else some fp) ∧
    entry.regex_filter
      = (if fp = [] then Option.none
         else if mt = .FILTER_MATCH_REGEX then regcomp fp else Option.none) := by
  unfold compile_filter_pattern at h
  by_cases h1 : fp = []
  · rw [if_pos h1] at h
    obtain ⟨he1, he2⟩ :
        ({ match_type := mt, regex_filter := Option.none, string_filter := Option.none,
           event_name := ename, header_name := hname } : event_filter_entry) = entry
          ∧ ex = excl := by
      simpa using h
    subst he1
    subst he2
    simp [h1]
  · rw [if_neg h1] at h
    by_cases h2 : mt = .FILTER_MATCH_REGEX
    · rw [if_pos h2] at h
      cases hr : regcomp fp with
      | none =>
        rw [hr] at h
        exact absurd h (by simp)
      | some f =>
        rw [hr] at h
        obtain ⟨he1, he2⟩ :
            ({ match_type := mt, regex_filter := some f, string_filter := Option.none,
               event_name := ename, header_name := hname } : event_filter_entry) = entry
              ∧ ex = excl := by
          simpa using h
        subst he1
        subst he2
        simp [h1, h2, hr]
    · rw [if_neg h2] at h
      obtain ⟨he1, he2⟩ :
          ({ match_type := mt, regex_filter := Option.none, string_filter := some fp,
             event_name := ename, header_name := hname } : event_filter_entry) = entry
            ∧ ex = excl := by
        simpa using h
      subst he1
      subst he2
      simp [h1, h2]

/-- Shape of a successful advanced compilation: the entry's strategy is the
resolved strategy of the option tokens and the routing is the resolved
routing. -/
theorem add_filter_advanced_eq_some_shape
    (regcomp : List Char → Option (List Char → Bool))
    (temp : List Char) (ex : Bool) (fp : List Char)
    (entry : event_filter_entry) (excl : Bool)
    (h : add_filter_advanced regcomp temp ex fp = some (entry, excl)) :
    entry.match_type
      = resolved_match_type .FILTER_MATCH_NONE (strtok_all option_delims temp)
    ∧ excl = resolved_is_exclude ex (strtok_all option_delims temp) := by
  unfold add_filter_advanced at h
  by_cases h1 : temp = []
  · rw [if_pos h1] at h
    exact absurd h (by simp)
  rw [if_neg h1] at h
  by_cases h2 : ¬ List.isSuffixOf [')'] temp = true
  · rw [if_pos h2] at h
    exact absurd h (by simp)
  rw [if_neg h2] at h
  cases hfold : (strtok_all option_delims temp).foldlM apply_filter_option
      (init_options_state ex) with
  | none =>
    rw [hfold] at h
    exact absurd h (by simp)
  | some st =>
    rw [hfold] at h
    replace h :
        (if st.options_found = false then Option.none
         else if fp = [] ∧ st.match_type ≠ .FILTER_MATCH_NONE then Option.none
         else if fp ≠ [] ∧ st.match_type = .FILTER_MATCH_NONE then Option.none
         else if st.name_found = false ∧ st.header_found = false ∧
             st.match_type = .FILTER_MATCH_NONE then Option.none
         else compile_filter_pattern regcomp st.match_type st.event_name
           st.header_name st.is_exclude fp) = some (entry, excl) := h
    have hst := foldlM_apply_eq_some _ _ _ hfold
    have hmt : st.match_type
        = resolved_match_type .FILTER_MATCH_NONE (strtok_all option_delims temp) := by
      rw [hst, foldl_total_match_type]
      rfl
    have hex : st.is_exclude
        = resolved_is_exclude ex (strtok_all option_delims temp) := by
      rw [hst, foldl_total_is_exclude]
      rfl
    by_cases c1 : st.options_found = false
    · rw [if_pos c1] at h
      exact absurd h (by simp)
    rw [if_neg c1] at h
    by_cases c2 : fp = [] ∧ st.match_type ≠ .FILTER_MATCH_NONE
    · rw [if_pos c2] at h
      exact absurd h (by simp)
    rw [if_neg c2] at h
    by_cases c3 : fp ≠ [] ∧ st.match_type = .FILTER_MATCH_NONE
    · rw [if_pos c3] at h
      exact absurd h (by simp)
    rw [if_neg c3] at h
    by_cases c4 : st.name_found = false ∧ st.header_found = false ∧
        st.match_type = .FILTER_MATCH_NONE
    · rw [if_pos c4] at h
      exact absurd h (by simp)
    rw [if_neg c4] at h
    obtain ⟨s1, _, _, s4, _, _⟩ :=
      compile_filter_pattern_eq_some_shape _ _ _ _ _ _ _ _ h
    exact ⟨hmt ▸ s1, hex ▸ s4⟩

/-- C5: a successfully compiled legacy declaration always carries the regex
strategy on the full body (no event-name or header constraint, the regex
compiled from the pattern with a leading `!` stripped) and routes to the
exclude set exactly when the value began with `!`; advanced syntax defaults
the strategy to `none` when no `method` option occurs; and the last
`action(...)` option overrides the `!`-implied routing. -/
theorem add_filter_routing (regcomp : List Char → Option (List Char → Bool))
    (criteria fp0 : List Char) (entry : event_filter_entry) (excl : Bool)
    (hsucc : add_filter regcomp criteria (some fp0) = some (entry, excl)) :
    (strstr_suffix ['('] criteria = Option.none →
      entry.match_type = .FILTER_MATCH_REGEX ∧
      entry.event_name = Option.none ∧
      entry.header_name = Option.none ∧
      entry.string_filter = Option.none ∧
      entry.regex_filter
        = regcomp (if fp0.head? = some '!' then fp0.tail else fp0) ∧
      excl = decide (fp0.head? = some '!'))
    ∧ (∀ options_start, strstr_suffix ['('] criteria = some options_start →
        ((∀ t ∈ strtok_all option_delims (ast_strip_discarded options_start.tail),
            is_method_option t = false) →
          entry.match_type = .FILTER_MATCH_NONE)
        ∧ ∀ (t1 : List (List Char)) (t : List Char) (t2 : List (List Char)) (ex' : Bool),
            strtok_all option_delims (ast_strip_discarded options_start.tail)
              = t1 ++ t :: t2 →
            parse_filter_option t = .OPT_ACTION ex' →
            (∀ t' ∈ t2, is_action_option t' = false) →
            excl = ex') := by
  unfold add_filter at hsucc
  by_cases h0 : criteria = []
  · rw [if_pos h0] at hsucc
    exact absurd hsucc (by simp)
  rw [if_neg h0] at hsucc
  constructor
  · intro hleg
    rw [hleg] at hsucc
    replace hsucc :
        (if (if fp0.head? = some '!' then fp0.tail else fp0) = [] then Option.none
         else
           compile_filter_pattern regcomp .FILTER_MATCH_REGEX Option.none Option.none
             (decide (fp0.head? = some '!'))
             (if fp0.head? = some '!' then fp0.tail else fp0))
          = some (entry, excl) := hsucc
    by_cases hfp : (if fp0.head? = some '!' then fp0.tail else fp0) = []
    · rw [if_pos hfp] at hsucc
      exact absurd hsucc (by simp)
    rw [if_neg hfp] at hsucc
    obtain ⟨s1, s2, s3, s4, s5, s6⟩ :=
      compile_filter_pattern_eq_some_shape _ _ _ _ _ _ _ _ hsucc
    refine ⟨s1, s2, s3, ?_, ?_, s4⟩
    · rw [s5]
      simp [hfp]
    · rw [s6]
      simp [hfp]
  · intro ostart hadv
    rw [hadv] at hsucc
    replace hsucc :
        add_filter_advanced regcomp (ast_strip_discarded ostart.tail)
          (decide (fp0.head? = some '!'))
          (if fp0.head? = some '!' then fp0.tail else fp0)
          = some (entry, excl) := hsucc
    obtain ⟨a1, a2⟩ := add_filter_advanced_eq_some_shape _ _ _ _ _ _ hsucc
    constructor
    · intro hnometh
      rw [a1, resolved_match_type_no_method _ _ hnometh]
    · intro t1 t t2 ex' htoks hact hafter
      rw [a2, htoks, resolved_is_exclude_last_action t1 t t2 _ ex' hact hafter]

/-- C5 witness: the legacy declaration `eventfilter = !abc` and the advanced
declaration `eventfilter(action(include),name(Newchannel)) = !`, both
compiled under `regcomp_any`. -/
theorem add_filter_routing_witness :
    (legacy_entry_demo.match_type = .FILTER_MATCH_REGEX ∧
      legacy_entry_demo.event_name = Option.none ∧
      legacy_entry_demo.header_name = Option.none ∧
      legacy_entry_demo.string_filter = Option.none ∧
      legacy_entry_demo.regex_filter
        = regcomp_any (if ( "!abc".data).head? = some '!' then ( "!abc".data).tail
            else "!abc".data) ∧
      true = decide (( "!abc".data).head? = some '!'))
    ∧ advanced_entry_demo.match_type = .FILTER_MATCH_NONE
    ∧ (false : Bool) = false := by
  have hleg := add_filter_routing regcomp_any "eventfilter".data "!abc".data
    legacy_entry_demo true rfl
  have hadv := add_filter_routing regcomp_any
    "eventfilter(action(include),name(Newchannel))".data "!".data
    advanced_entry_demo false rfl
  refine ⟨hleg.1 rfl, ?_, ?_⟩
  · exact ((hadv.2 "(action(include),name(Newchannel))".data rfl).1 (by decide))
  · exact ((hadv.2 "(action(include),name(Newchannel))".data rfl).2
      [] "action(include".data [ "name(Newchannel".data] false (by decide) (by decide)
      (by decide))
